import Mathlib

/-!
Verification of the ELP2000-82B lunar-position engine (`src/elp2000-82b.h`).

The repository ships the public header only: the `sphpoint` and `recpoint`
record types and the four function prototypes
`geocentric_moon_position`, `geocentric_moon_position_rect`,
`geocentric_moon_position_of_J2000` and `geocentric_moon_position_FK5`.
The implementation file and the numeric coefficient tables are not in the
repository, so every behavioural definition below is modelled from the
design document (spec.md), over a real-number embedding of the C doubles.
-/

namespace ELP2000

noncomputable section

/-- From the header (`src/elp2000-82b.h`, lines 76-80): spherical
coordinates, longitude and latitude in arcseconds, distance in km. -/
@[ext]
structure sphpoint where
  longitude : ℝ
  latitude : ℝ
  distance : ℝ

/-- From the header (`src/elp2000-82b.h`, lines 86-90): a rectangular
(cartesian) point, all components in km. -/
@[ext]
structure recpoint where
  x : ℝ
  y : ℝ
  z : ℝ

/-- Modelled from the spec: the fixed cubic-polynomial coefficients
(constant, linear, quadratic, cubic in t) defining one fundamental
argument; literature data, missing from src/. -/
structure ArgPoly where
  a0 : ℝ
  a1 : ℝ
  a2 : ℝ
  a3 : ℝ

/-- Modelled from the spec: each argument is computed as
a0 + a1·t + a2·t² + a3·t³ — purely a polynomial evaluation. -/
def ArgPoly.eval (p : ArgPoly) (t : ℝ) : ℝ :=
  p.a0 + p.a1 * t + p.a2 * t ^ 2 + p.a3 * t ^ 3

/-- Modelled from the spec: principal-value reduction of an angle modulo
one full turn (2π radians), normalized to be non-negative. -/
def reduceAngle (θ : ℝ) : ℝ :=
  θ - 2 * Real.pi * ⌊θ / (2 * Real.pi)⌋

/-- Modelled from the spec: the trigonometric kind of a periodic term. -/
inductive TrigKind where
  | sine : TrigKind
  | cosine : TrigKind

/-- Evaluation of the trigonometric kind. -/
def trigEval : TrigKind → ℝ → ℝ
  | TrigKind.sine => Real.sin
  | TrigKind.cosine => Real.cos

/-- Modelled from the spec: a Periodic Term Record — integer multiplier
vector over the fundamental arguments, fixed phase offset, amplitude
coefficient polynomial in t (a constant list when the record carries no
secular correction), and trigonometric kind. The numeric values are
external literature data, missing from src/. -/
structure TermRecord where
  mult : List ℤ
  phase : ℝ
  amp : List ℝ
  trig : TrigKind

/-- Dot product of an integer multiplier vector with argument values. -/
def dot : List ℤ → List ℝ → ℝ
  | [], _ => 0
  | _, [] => 0
  | m :: ms, a :: as => (m : ℝ) * a + dot ms as

/-- Evaluation of an amplitude coefficient polynomial at t (Horner). -/
def polyEval (cs : List ℝ) (t : ℝ) : ℝ :=
  cs.foldr (fun c acc => c + acc * t) 0

/-- Modelled from the spec: one term's contribution — amplitude (possibly
a polynomial in t) times the trigonometric function of the phase, the
phase being the dot product of the multiplier vector with the
fundamental-argument values plus the fixed phase offset. -/
def TermRecord.value (r : TermRecord) (args : List ℝ) (t : ℝ) : ℝ :=
  polyEval r.amp t * trigEval r.trig (dot r.mult args + r.phase)

/-- Modelled from the spec: the series summation engine accumulates the
term contributions into a running total, iterating the table in order. -/
def seriesSum (table : List TermRecord) (args : List ℝ) (t : ℝ) : ℝ :=
  table.foldl (fun acc r => acc + r.value args t) 0

/-- A fixed 3×3 matrix of rotation constants. -/
structure Mat3 where
  m11 : ℝ
  m12 : ℝ
  m13 : ℝ
  m21 : ℝ
  m22 : ℝ
  m23 : ℝ
  m31 : ℝ
  m32 : ℝ
  m33 : ℝ

/-- Application of a fixed rotation matrix to a rectangular point. -/
def Mat3.apply (M : Mat3) (p : recpoint) : recpoint :=
  { x := M.m11 * p.x + M.m12 * p.y + M.m13 * p.z
    y := M.m21 * p.x + M.m22 * p.y + M.m23 * p.z
    z := M.m31 * p.x + M.m32 * p.y + M.m33 * p.z }

/-- Linear combination of two rectangular points, used to state that the
frame rotations are linear transforms. -/
def recpoint.lincomb (a : ℝ) (p : recpoint) (b : ℝ) (q : recpoint) : recpoint :=
  { x := a * p.x + b * q.x
    y := a * p.y + b * q.y
    z := a * p.z + b * q.z }

/-- Modelled from the spec: the static, read-only external data of the
engine — the fundamental-argument polynomials, the three ordered term
tables (longitude, latitude, distance), and the two fixed frame-rotation
matrices. The numeric values come from the cited literature and are not
in src/; the engine is parameterized by this record. -/
structure ElpData where
  argPolys : List ArgPoly
  lonTable : List TermRecord
  latTable : List TermRecord
  distTable : List TermRecord
  rotJ2000 : Mat3
  rotFK5 : Mat3

/-- Modelled from the spec: the Argument Evaluator — instantiate each
fixed argument polynomial at t and reduce it modulo a full turn. -/
def fundamentalArgs (data : ElpData) (t : ℝ) : List ℝ :=
  data.argPolys.map (fun p => reduceAngle (p.eval t))

/-- Modelled from the spec: `geocentric_moon_position` (declared at
`src/elp2000-82b.h:103`) — the three summed series are the longitude
(arcseconds), latitude (arcseconds) and distance (km) components of the
spherical position. -/
def geocentric_moon_position (data : ElpData) (t : ℝ) : sphpoint :=
  { longitude := seriesSum data.lonTable (fundamentalArgs data t) t
    latitude := seriesSum data.latTable (fundamentalArgs data t) t
    distance := seriesSum data.distTable (fundamentalArgs data t) t }

/-- Conversion from arcseconds to radians (648000 arcseconds = π rad). -/
def arcsecToRad (s : ℝ) : ℝ :=
  s * (Real.pi / 648000)

/-- Conversion from radians to arcseconds. -/
def radToArcsec (r : ℝ) : ℝ :=
  r * (648000 / Real.pi)

/-- Modelled from the spec: standard spherical-to-cartesian conversion,
longitude and latitude first converted from arcseconds to radians. -/
def sphericalToCartesian (s : sphpoint) : recpoint :=
  { x := s.distance * Real.cos (arcsecToRad s.latitude) * Real.cos (arcsecToRad s.longitude)
    y := s.distance * Real.cos (arcsecToRad s.latitude) * Real.sin (arcsecToRad s.longitude)
    z := s.distance * Real.sin (arcsecToRad s.latitude) }

/-- Modelled from the spec: `geocentric_moon_position_rect` (declared at
`src/elp2000-82b.h:115`) — the spherical position converted to cartesian
coordinates in the ELP2000 frame. -/
def geocentric_moon_position_rect (data : ElpData) (t : ℝ) : recpoint :=
  sphericalToCartesian (geocentric_moon_position data t)

/-- Modelled from the spec: `geocentric_moon_position_of_J2000` (declared
at `src/elp2000-82b.h:127`) — the fixed ELP-to-J2000 rotation applied to
the ELP rectangular position. -/
def geocentric_moon_position_of_J2000 (data : ElpData) (t : ℝ) : recpoint :=
  data.rotJ2000.apply (geocentric_moon_position_rect data t)

/-- Modelled from the spec: `geocentric_moon_position_FK5` (declared at
`src/elp2000-82b.h:140`) — the fixed FK5 precession/frame-bias rotation
applied to the J2000 rectangular position. -/
def geocentric_moon_position_FK5 (data : ElpData) (t : ℝ) : recpoint :=
  data.rotFK5.apply (geocentric_moon_position_of_J2000 data t)

/-- Two-argument arctangent, via the complex argument: the angle in
(-π, π] of the point (x, y). -/
def arctan2 (y x : ℝ) : ℝ :=
  Complex.arg (Complex.mk x y)

/-- Modelled from the spec: conversion of a rectangular point back to
spherical coordinates via atan2 (longitude, normalized to the canonical
[0, 2π) range), arcsine (latitude) and the Euclidean norm (distance),
the angles converted back to arcseconds. -/
def cartesianToSpherical (p : recpoint) : sphpoint :=
  { longitude := radToArcsec (reduceAngle (arctan2 p.y p.x))
    latitude := radToArcsec (Real.arcsin (p.z / Real.sqrt (p.x ^ 2 + p.y ^ 2 + p.z ^ 2)))
    distance := Real.sqrt (p.x ^ 2 + p.y ^ 2 + p.z ^ 2) }

/-- From the header (`src/elp2000-82b.h`, lines 103-140): the public
interface is exactly the four position functions, each taking one double. -/
inductive ApiOp where
  | position : ApiOp
  | rect : ApiOp
  | ofJ2000 : ApiOp
  | fk5 : ApiOp

/-- Dispatch of one public call: the operation selects one of the four
pure functions, applied to the single scalar argument t. -/
def apiCall (data : ElpData) (op : ApiOp) (t : ℝ) : sphpoint ⊕ recpoint :=
  match op with
  | ApiOp.position => Sum.inl (geocentric_moon_position data t)
  | ApiOp.rect => Sum.inr (geocentric_moon_position_rect data t)
  | ApiOp.ofJ2000 => Sum.inr (geocentric_moon_position_of_J2000 data t)
  | ApiOp.fk5 => Sum.inr (geocentric_moon_position_FK5 data t)

/-- Modelled from the spec: one public call against the engine state (the
static tables): it produces its output and leaves the tables unchanged,
since they are read-only after initialization. -/
def apiStep (data : ElpData) (c : ApiOp × ℝ) : (sphpoint ⊕ recpoint) × ElpData :=
  (apiCall data c.1 c.2, data)

/-- A sequence of public calls threaded through the engine state,
collecting the outputs. -/
def runCalls : ElpData → List (ApiOp × ℝ) → ElpData × List (sphpoint ⊕ recpoint)
  | data, [] => (data, [])
  | data, c :: cs =>
    ((runCalls (apiStep data c).2 cs).1,
      (apiStep data c).1 :: (runCalls (apiStep data c).2 cs).2)

/-- A concrete data record used to evaluate the model at a point where
the spherical position is the pole (latitude one quarter turn, 324000
arcseconds): one constant cosine term per table, no arguments. -/
def dataPole : ElpData :=
  { argPolys := []
    lonTable := [{ mult := [], phase := 0, amp := [324000], trig := TrigKind.cosine }]
    latTable := [{ mult := [], phase := 0, amp := [324000], trig := TrigKind.cosine }]
    distTable := [{ mult := [], phase := 0, amp := [1], trig := TrigKind.cosine }]
    rotJ2000 := ⟨1, 0, 0, 0, 1, 0, 0, 0, 1⟩
    rotFK5 := ⟨1, 0, 0, 0, 1, 0, 0, 0, 1⟩ }

/-- A concrete data record whose spherical position at t = 0 is longitude
0, latitude 0, distance 1: empty angle tables, one constant distance term. -/
def dataRT : ElpData :=
  { argPolys := []
    lonTable := []
    latTable := []
    distTable := [{ mult := [], phase := 0, amp := [1], trig := TrigKind.cosine }]
    rotJ2000 := ⟨1, 0, 0, 0, 1, 0, 0, 0, 1⟩
    rotFK5 := ⟨1, 0, 0, 0, 1, 0, 0, 0, 1⟩ }

end

/-! ### Helper lemmas on the angle reduction -/

lemma two_pi_pos : (0:ℝ) < 2 * Real.pi := by positivity

lemma reduceAngle_eq_fract (θ : ℝ) :
    reduceAngle θ = 2 * Real.pi * Int.fract (θ / (2 * Real.pi)) := by
  unfold reduceAngle Int.fract
  field_simp

lemma reduceAngle_add_int_mul (θ : ℝ) (k : ℤ) :
    reduceAngle (θ + k * (2 * Real.pi)) = reduceAngle θ := by
  unfold reduceAngle
  have hdiv : (θ + k * (2 * Real.pi)) / (2 * Real.pi) = θ / (2 * Real.pi) + k := by
    field_simp
  rw [hdiv, Int.floor_add_int]
  push_cast
  ring

lemma reduceAngle_nonneg (θ : ℝ) : 0 ≤ reduceAngle θ := by
  rw [reduceAngle_eq_fract]
  exact mul_nonneg two_pi_pos.le (Int.fract_nonneg _)

lemma reduceAngle_lt (θ : ℝ) : reduceAngle θ < 2 * Real.pi := by
  rw [reduceAngle_eq_fract]
  nlinarith [Int.fract_lt_one (θ / (2 * Real.pi)), two_pi_pos,
    Int.fract_nonneg (θ / (2 * Real.pi))]

lemma reduceAngle_eq_self {θ : ℝ} (h0 : 0 ≤ θ) (h1 : θ < 2 * Real.pi) :
    reduceAngle θ = θ := by
  unfold reduceAngle
  have hf : ⌊θ / (2 * Real.pi)⌋ = 0 := by
    apply Int.floor_eq_zero_iff.mpr
    exact ⟨div_nonneg h0 two_pi_pos.le, by rw [div_lt_one two_pi_pos]; exact h1⟩
  rw [hf]
  simp

lemma reduceAngle_spec (θ : ℝ) :
    θ = reduceAngle θ + ⌊θ / (2 * Real.pi)⌋ * (2 * Real.pi) := by
  unfold reduceAngle; ring

lemma mk_eq_cos_sin (α : ℝ) :
    Complex.mk (Real.cos α) (Real.sin α) = Complex.cos α + Complex.sin α * Complex.I := by
  apply Complex.ext <;>
    simp [Complex.cos_ofReal_re, Complex.sin_ofReal_re, Complex.cos_ofReal_im,
      Complex.sin_ofReal_im]

lemma arg_cos_sin (θ : ℝ) :
    reduceAngle (Complex.arg (Complex.mk (Real.cos θ) (Real.sin θ))) = reduceAngle θ := by
  set k := ⌊θ / (2 * Real.pi)⌋ with hk
  have hθ : θ = reduceAngle θ + k * (2 * Real.pi) := reduceAngle_spec θ
  have hcos : Real.cos θ = Real.cos (reduceAngle θ) := by
    conv_lhs => rw [hθ]
    exact Real.cos_add_int_mul_two_pi _ _
  have hsin : Real.sin θ = Real.sin (reduceAngle θ) := by
    conv_lhs => rw [hθ]
    exact Real.sin_add_int_mul_two_pi _ _
  rw [hcos, hsin]
  set α := reduceAngle θ with hα
  have h0 : 0 ≤ α := reduceAngle_nonneg θ
  have h1 : α < 2 * Real.pi := reduceAngle_lt θ
  have hra : reduceAngle α = α := reduceAngle_eq_self h0 h1
  rcases le_or_lt α Real.pi with hle | hgt
  · rw [mk_eq_cos_sin, Complex.arg_cos_add_sin_mul_I ⟨by linarith [Real.pi_pos], hle⟩, hra]
  · have hcos2 : Real.cos α = Real.cos (α - 2 * Real.pi) := (Real.cos_sub_two_pi α).symm
    have hsin2 : Real.sin α = Real.sin (α - 2 * Real.pi) := (Real.sin_sub_two_pi α).symm
    rw [hcos2, hsin2, mk_eq_cos_sin,
      Complex.arg_cos_add_sin_mul_I ⟨by linarith, by linarith [Real.pi_pos]⟩]
    have h2 : α - 2 * Real.pi = α + (-1 : ℤ) * (2 * Real.pi) := by push_cast; ring
    rw [h2, reduceAngle_add_int_mul, hra]

lemma radToArcsec_arcsecToRad (a : ℝ) : radToArcsec (arcsecToRad a) = a := by
  unfold radToArcsec arcsecToRad
  field_simp

/-- The generic spherical round trip: for a positive distance, a longitude
in the canonical [0, 2π) range and a latitude strictly inside the open
quarter-turn bounds, converting to cartesian and back is the identity. -/
lemma roundtrip_generic (s : sphpoint) (hd : 0 < s.distance)
    (hlon0 : 0 ≤ arcsecToRad s.longitude)
    (hlon1 : arcsecToRad s.longitude < 2 * Real.pi)
    (hlat : |arcsecToRad s.latitude| < Real.pi / 2) :
    cartesianToSpherical (sphericalToCartesian s) = s := by
  obtain ⟨hlatl, hlatu⟩ := abs_lt.mp hlat
  set lon := arcsecToRad s.longitude with hlon
  set lat := arcsecToRad s.latitude with hlat2
  have hcoslat : 0 < Real.cos lat := Real.cos_pos_of_mem_Ioo ⟨hlatl, hlatu⟩
  set r := s.distance with hr
  set ρ := r * Real.cos lat with hρ
  have hρpos : 0 < ρ := mul_pos hd hcoslat
  have hx : (sphericalToCartesian s).x = ρ * Real.cos lon := rfl
  have hy : (sphericalToCartesian s).y = ρ * Real.sin lon := rfl
  have hz : (sphericalToCartesian s).z = r * Real.sin lat := rfl
  have hn : (sphericalToCartesian s).x ^ 2 + (sphericalToCartesian s).y ^ 2 +
      (sphericalToCartesian s).z ^ 2 = r ^ 2 := by
    rw [hx, hy, hz, hρ]
    linear_combination (r ^ 2 * Real.cos lat ^ 2) * Real.sin_sq_add_cos_sq lon +
      r ^ 2 * Real.sin_sq_add_cos_sq lat
  have hsqrt : Real.sqrt ((sphericalToCartesian s).x ^ 2 + (sphericalToCartesian s).y ^ 2 +
      (sphericalToCartesian s).z ^ 2) = r := by
    rw [hn]; exact Real.sqrt_sq hd.le
  ext
  · show radToArcsec (reduceAngle (arctan2 (sphericalToCartesian s).y
      (sphericalToCartesian s).x)) = s.longitude
    rw [hx, hy]
    have hmul : Complex.mk (ρ * Real.cos lon) (ρ * Real.sin lon)
        = (ρ : ℂ) * Complex.mk (Real.cos lon) (Real.sin lon) := by
      apply Complex.ext <;> simp [Complex.mul_re, Complex.mul_im]
    unfold arctan2
    rw [hmul, Complex.arg_real_mul _ hρpos, arg_cos_sin,
      reduceAngle_eq_self hlon0 hlon1, hlon, radToArcsec_arcsecToRad]
  · show radToArcsec (Real.arcsin ((sphericalToCartesian s).z /
      Real.sqrt ((sphericalToCartesian s).x ^ 2 + (sphericalToCartesian s).y ^ 2 +
        (sphericalToCartesian s).z ^ 2))) = s.latitude
    rw [hsqrt, hz, mul_comm r (Real.sin lat), mul_div_assoc, div_self hd.ne.symm, mul_one,
      Real.arcsin_sin hlatl.le hlatu.le, hlat2, radToArcsec_arcsecToRad]
  · show Real.sqrt ((sphericalToCartesian s).x ^ 2 + (sphericalToCartesian s).y ^ 2 +
      (sphericalToCartesian s).z ^ 2) = s.distance
    exact hsqrt

/-! ### Helper lemmas on the series accumulation and the concrete data -/

lemma foldl_add_eq_sum {α : Type} (f : α → ℝ) (l : List α) (init : ℝ) :
    l.foldl (fun acc r => acc + f r) init = init + (l.map f).sum := by
  induction l generalizing init with
  | nil => simp
  | cons hd tl ih => simp [ih, add_assoc]

lemma seriesSum_eq_sum_map (table : List TermRecord) (args : List ℝ) (t : ℝ) :
    seriesSum table args t = (table.map (fun r => r.value args t)).sum := by
  unfold seriesSum
  rw [foldl_add_eq_sum (fun r => TermRecord.value r args t) table 0, zero_add]

lemma dataPole_position : geocentric_moon_position dataPole 0 = ⟨324000, 324000, 1⟩ := by
  unfold geocentric_moon_position dataPole seriesSum fundamentalArgs
  simp [TermRecord.value, polyEval, trigEval, dot]

lemma dataRT_position : geocentric_moon_position dataRT 0 = ⟨0, 0, 1⟩ := by
  unfold geocentric_moon_position dataRT seriesSum fundamentalArgs
  simp [TermRecord.value, polyEval, trigEval, dot]

lemma arcsecToRad_324000 : arcsecToRad 324000 = Real.pi / 2 := by
  unfold arcsecToRad
  ring

lemma arcsecToRad_zero : arcsecToRad 0 = 0 := by
  unfold arcsecToRad
  ring

lemma dataPole_rect : geocentric_moon_position_rect dataPole 0 = ⟨0, 0, 1⟩ := by
  unfold geocentric_moon_position_rect
  rw [dataPole_position]
  unfold sphericalToCartesian
  ext <;> simp [arcsecToRad_324000]

lemma mk_zero_zero : Complex.mk 0 0 = 0 := by
  apply Complex.ext <;> simp

/-! ### Claim theorems -/

/-- Claim C1: for each of the three target series, the summed quantity
returned inside `geocentric_moon_position t` equals the sum, taken in
table order over every term record of that table, of the amplitude
polynomial evaluated at t times the trigonometric function (sine or
cosine per the record) of the phase, the phase being the dot product of
the record's integer multiplier vector with the fundamental-argument
values at t plus the record's fixed phase offset. -/
theorem series_sum_matches_table_order (data : ElpData) (t : ℝ) :
    (geocentric_moon_position data t).longitude =
      (data.lonTable.map (fun r =>
        polyEval r.amp t * trigEval r.trig (dot r.mult (fundamentalArgs data t) + r.phase))).sum ∧
    (geocentric_moon_position data t).latitude =
      (data.latTable.map (fun r =>
        polyEval r.amp t * trigEval r.trig (dot r.mult (fundamentalArgs data t) + r.phase))).sum ∧
    (geocentric_moon_position data t).distance =
      (data.distTable.map (fun r =>
        polyEval r.amp t * trigEval r.trig (dot r.mult (fundamentalArgs data t) + r.phase))).sum :=
  ⟨seriesSum_eq_sum_map data.lonTable (fundamentalArgs data t) t,
   seriesSum_eq_sum_map data.latTable (fundamentalArgs data t) t,
   seriesSum_eq_sum_map data.distTable (fundamentalArgs data t) t⟩

/-- Claim C2: every fundamental argument used by the engine is the cubic
polynomial a0 + a1·t + a2·t² + a3·t³ evaluated at t and then reduced by
a principal-value reduction to the non-negative canonical range [0, 2π);
the reduction is modulo a full turn, not modulo the polynomial: for every
angle θ and integer k, reducing θ + k full turns gives the reduction
of θ. -/
theorem fundamental_argument_polynomial_and_reduction (data : ElpData) (t : ℝ) :
    fundamentalArgs data t =
      data.argPolys.map (fun p =>
        reduceAngle (p.a0 + p.a1 * t + p.a2 * t ^ 2 + p.a3 * t ^ 3)) ∧
    (∀ θ : ℝ, 0 ≤ reduceAngle θ ∧ reduceAngle θ < 2 * Real.pi) ∧
    (∀ (θ : ℝ) (k : ℤ), reduceAngle (θ + k * (2 * Real.pi)) = reduceAngle θ) :=
  ⟨rfl, fun θ => ⟨reduceAngle_nonneg θ, reduceAngle_lt θ⟩, reduceAngle_add_int_mul⟩

/-- Claim C3: the frame chain composes — `geocentric_moon_position_FK5 t`
is the fixed FK5 rotation applied to `geocentric_moon_position_of_J2000 t`,
which in turn is the fixed ELP-to-J2000 rotation applied to
`geocentric_moon_position_rect t`; both rotations are linear transforms
whose constants are part of the static data and do not depend on t. -/
theorem frame_chain_composition (data : ElpData) (t : ℝ) :
    geocentric_moon_position_FK5 data t =
      data.rotFK5.apply (geocentric_moon_position_of_J2000 data t) ∧
    geocentric_moon_position_of_J2000 data t =
      data.rotJ2000.apply (geocentric_moon_position_rect data t) ∧
    (∀ (M : Mat3) (a b : ℝ) (p q : recpoint),
      M.apply (recpoint.lincomb a p b q) =
        recpoint.lincomb a (M.apply p) b (M.apply q)) := by
  refine ⟨rfl, rfl, fun M a b p q => ?_⟩
  ext <;> simp [Mat3.apply, recpoint.lincomb] <;> ring

/-- Claim C4: `geocentric_moon_position_rect t` is the spherical-to-
cartesian conversion of `geocentric_moon_position t`: with longitude and
latitude first converted from arcseconds to radians and r the distance,
x = r·cos(lat)·cos(lon), y = r·cos(lat)·sin(lon), z = r·sin(lat). -/
theorem rect_is_spherical_to_cartesian (data : ElpData) (t : ℝ) :
    geocentric_moon_position_rect data t =
      { x := (geocentric_moon_position data t).distance *
            Real.cos (arcsecToRad (geocentric_moon_position data t).latitude) *
            Real.cos (arcsecToRad (geocentric_moon_position data t).longitude)
        y := (geocentric_moon_position data t).distance *
            Real.cos (arcsecToRad (geocentric_moon_position data t).latitude) *
            Real.sin (arcsecToRad (geocentric_moon_position data t).longitude)
        z := (geocentric_moon_position data t).distance *
            Real.sin (arcsecToRad (geocentric_moon_position data t).latitude) } :=
  rfl

/-- Claim C5, counterexample: with the spherical position at the pole
(latitude exactly one quarter turn, 324000 arcseconds), all hypotheses of
the claim hold — positive distance, longitude in the canonical [0, 2π)
range, |latitude| ≤ a quarter turn — yet converting the rectangular ELP
position back to spherical coordinates does not reproduce the spherical
position: the recovered longitude is 0, not 324000 arcseconds. -/
theorem roundtrip_fails_at_quarter_turn_latitude :
    0 < (geocentric_moon_position dataPole 0).distance ∧
    0 ≤ arcsecToRad (geocentric_moon_position dataPole 0).longitude ∧
    arcsecToRad (geocentric_moon_position dataPole 0).longitude < 2 * Real.pi ∧
    |arcsecToRad (geocentric_moon_position dataPole 0).latitude| ≤ Real.pi / 2 ∧
    cartesianToSpherical (geocentric_moon_position_rect dataPole 0) ≠
      geocentric_moon_position dataPole 0 := by
  rw [dataPole_position, dataPole_rect]
  have hpi := Real.pi_pos
  refine ⟨by norm_num, ?_, ?_, ?_, ?_⟩
  · show (0:ℝ) ≤ arcsecToRad 324000
    rw [arcsecToRad_324000]; linarith
  · show arcsecToRad 324000 < 2 * Real.pi
    rw [arcsecToRad_324000]; linarith
  · show |arcsecToRad 324000| ≤ Real.pi / 2
    rw [arcsecToRad_324000, abs_of_nonneg (by linarith)]
  · intro h
    have hcomp := congrArg sphpoint.longitude h
    have hlon : (cartesianToSpherical ⟨0, 0, 1⟩).longitude = 0 := by
      unfold cartesianToSpherical arctan2
      simp only [mk_zero_zero, Complex.arg_zero]
      rw [reduceAngle_eq_self le_rfl two_pi_pos]
      unfold radToArcsec
      ring
    rw [hlon] at hcomp
    norm_num at hcomp

/-- Claim C5 (amended): for every t, if the spherical position has
positive distance, longitude in the canonical [0, 2π) range and
|latitude| strictly below a quarter turn, then converting the rectangular
ELP position back to spherical coordinates via atan2 (longitude,
normalized to the canonical range), arcsine (latitude) and the Euclidean
norm (distance) reproduces the longitude, latitude and distance of
`geocentric_moon_position t` exactly over the real-number embedding. -/
theorem roundtrip_reproduces_spherical (data : ElpData) (t : ℝ)
    (hd : 0 < (geocentric_moon_position data t).distance)
    (hlon0 : 0 ≤ arcsecToRad (geocentric_moon_position data t).longitude)
    (hlon1 : arcsecToRad (geocentric_moon_position data t).longitude < 2 * Real.pi)
    (hlat : |arcsecToRad (geocentric_moon_position data t).latitude| < Real.pi / 2) :
    cartesianToSpherical (geocentric_moon_position_rect data t) =
      geocentric_moon_position data t :=
  roundtrip_generic _ hd hlon0 hlon1 hlat

/-- Claim C5 witness: the round-trip theorem applied at the concrete data
`dataRT` and t = 0, where the spherical position is longitude 0,
latitude 0, distance 1. -/
theorem roundtrip_reproduces_spherical_witness :
    0 < (geocentric_moon_position dataRT 0).distance ∧
    cartesianToSpherical (geocentric_moon_position_rect dataRT 0) =
      geocentric_moon_position dataRT 0 := by
  have hd : 0 < (geocentric_moon_position dataRT 0).distance := by
    rw [dataRT_position]; norm_num
  have hlon0 : 0 ≤ arcsecToRad (geocentric_moon_position dataRT 0).longitude := by
    rw [dataRT_position]
    show (0:ℝ) ≤ arcsecToRad 0
    rw [arcsecToRad_zero]
  have hlon1 : arcsecToRad (geocentric_moon_position dataRT 0).longitude < 2 * Real.pi := by
    rw [dataRT_position]
    show arcsecToRad 0 < 2 * Real.pi
    rw [arcsecToRad_zero]; exact two_pi_pos
  have hlat : |arcsecToRad (geocentric_moon_position dataRT 0).latitude| < Real.pi / 2 := by
    rw [dataRT_position]
    show |arcsecToRad 0| < Real.pi / 2
    rw [arcsecToRad_zero, abs_zero]
    linarith [Real.pi_pos]
  exact ⟨hd, roundtrip_reproduces_spherical dataRT 0 hd hlon0 hlon1 hlat⟩

/-- Claim C7: each of the four public operations is a deterministic pure
function of its scalar argument and the static tables: equal inputs give
identical results, and in any batch of calls the result at a call's
position is the pure function of that call's own t, independent of the
surrounding calls. -/
theorem deterministic_pure_calls (data : ElpData) (t1 t2 : ℝ) (h : t1 = t2) :
    (geocentric_moon_position data t1 = geocentric_moon_position data t2 ∧
     geocentric_moon_position_rect data t1 = geocentric_moon_position_rect data t2 ∧
     geocentric_moon_position_of_J2000 data t1 = geocentric_moon_position_of_J2000 data t2 ∧
     geocentric_moon_position_FK5 data t1 = geocentric_moon_position_FK5 data t2) ∧
    (∀ pre post : List ℝ,
      (pre ++ t1 :: post).map (geocentric_moon_position data) =
        pre.map (geocentric_moon_position data) ++
          geocentric_moon_position data t1 :: post.map (geocentric_moon_position data)) := by
  subst h
  exact ⟨⟨rfl, rfl, rfl, rfl⟩, fun pre post => by simp⟩

/-- Claim C7 witness: the determinism theorem applied at the concrete
data `dataRT`, t = 0, with a batch of surrounding calls at t = 1 and
t = 2. -/
theorem deterministic_pure_calls_witness :
    geocentric_moon_position dataRT 0 = geocentric_moon_position dataRT 0 ∧
    (([1] : List ℝ) ++ (0:ℝ) :: ([2] : List ℝ)).map (geocentric_moon_position dataRT) =
      ([1] : List ℝ).map (geocentric_moon_position dataRT) ++
        geocentric_moon_position dataRT 0 ::
          ([2] : List ℝ).map (geocentric_moon_position dataRT) :=
  ⟨(deterministic_pure_calls dataRT 0 0 rfl).1.1,
   (deterministic_pure_calls dataRT 0 0 rfl).2 [1] [2]⟩

/-- Claim C9: every call to any of the four public functions returns a
complete coordinate value — a spherical triple (longitude, latitude,
distance) or a rectangular triple (x, y, z) of exactly three real
components — with no failure channel: every call yields a triple. -/
theorem calls_return_complete_triples (data : ElpData) (t : ℝ) :
    (∃ lon lat dist : ℝ, geocentric_moon_position data t = ⟨lon, lat, dist⟩) ∧
    (∃ x y z : ℝ, geocentric_moon_position_rect data t = ⟨x, y, z⟩) ∧
    (∃ x y z : ℝ, geocentric_moon_position_of_J2000 data t = ⟨x, y, z⟩) ∧
    (∃ x y z : ℝ, geocentric_moon_position_FK5 data t = ⟨x, y, z⟩) :=
  ⟨⟨_, _, _, rfl⟩, ⟨_, _, _, rfl⟩, ⟨_, _, _, rfl⟩, ⟨_, _, _, rfl⟩⟩

/-- Claim C10: the public interface consists of the four operations of
`ApiOp`, each taking exactly one scalar t; running any sequence of calls
leaves the engine state (the build-time tables) unchanged, and the output
of every call in the sequence is the pure function of its own operation
and t evaluated against the build-time tables, unaffected by the other
calls. -/
theorem interface_fixed_tables_only_t_matters (data : ElpData) (calls : List (ApiOp × ℝ)) :
    (runCalls data calls).1 = data ∧
    (runCalls data calls).2 = calls.map (fun c => apiCall data c.1 c.2) := by
  induction calls with
  | nil => exact ⟨rfl, rfl⟩
  | cons c cs ih =>
    refine ⟨ih.1, ?_⟩
    show apiCall data c.1 c.2 :: (runCalls data cs).2 =
      apiCall data c.1 c.2 :: cs.map (fun c => apiCall data c.1 c.2)
    rw [ih.2]

end ELP2000
